import Mathlib

/-!
# Verification of the semantic cache decision engine

A shallow embedding of the semantic-cache service: the vector-search
pipeline built in `database/mongodb.py`, the lookup and save orchestration
of `services/cache_service.py`, the embedding gateway of
`services/embedding_service.py`, and the metrics collector of
`monitoring/metrics.py`.  Machine floats are modelled as rationals; the
external collaborators (the embedding model, the ANN engine, the wall
clock, and the storage acknowledgement) are oracles passed as parameters.
-/

namespace SemanticCache

/-! ### Configuration defaults (config.py) -/

def SIMILARITY_THRESHOLD : ℚ := 85 / 100

def EMBEDDING_DIMENSIONS : Nat := 384

def DEFAULT_NUM_CANDIDATES : Nat := 1000

def MAX_QUERY_LIMIT : Nat := 10

def CACHE_TTL_SECONDS : Nat := 86400

/-! ### Data model (models/pydantic_models.py, MongoDB documents) -/

/-- A stored cache document: the dictionary persisted by
`insert_cache_entry` (user_id, query, response, embedding, timestamp). -/
structure CacheDoc where
  user_id : String
  query : String
  response : String
  embedding : List ℚ
  timestamp : Nat
  deriving DecidableEq

/-- A document decorated with the `vector_score` field added by the
`$addFields ({"vector_score": {"$meta": "vectorSearchScore"}})` stage. -/
structure Scored where
  doc : CacheDoc
  vector_score : ℚ
  deriving DecidableEq

/-- `QueryRequest` of `models/pydantic_models.py`: `threshold` is optional. -/
structure QueryRequest where
  user_id : String
  query : String
  threshold : Option ℚ
  deriving DecidableEq

/-- `CacheEntry` of `models/pydantic_models.py`: `timestamp` and `embedding`
are optional; `embedding = some []` is a caller-supplied empty list, which
Python treats as falsy exactly like `none`. -/
structure CacheEntry where
  user_id : String
  query : String
  response : String
  timestamp : Option Nat
  embedding : Option (List ℚ)
  deriving DecidableEq

/-! ### Vector search pipeline (database/mongodb.py, `vector_search`) -/

/-- Descending order on `vector_score`: the `$sort ({"vector_score": -1})`
stage sorts by this relation. -/
def scoreDesc (a b : Scored) : Prop := b.vector_score ≤ a.vector_score

instance : DecidableRel scoreDesc :=
  fun a b => inferInstanceAs (Decidable (b.vector_score ≤ a.vector_score))

instance : IsTotal Scored scoreDesc :=
  ⟨fun a b => le_total b.vector_score a.vector_score⟩

instance : IsTrans Scored scoreDesc :=
  ⟨fun _ _ _ h1 h2 => le_trans h2 h1⟩

/-- The stages of the aggregation pipeline that follow `$vectorSearch` and
`$addFields`: `$match (vector_score >= threshold)`, then
`$sort (vector_score: -1)`, then `$limit 1`.  `cands` is the scored
candidate list the `$vectorSearch` stage returned. -/
def postStages (cands : List Scored) (threshold : ℚ) : List Scored :=
  ((cands.filter (fun c => decide (threshold ≤ c.vector_score))).insertionSort
    scoreDesc).take 1

/-- `results[0] if results else None` on the pipeline output. -/
def searchHead (cands : List Scored) (threshold : ℚ) : Option Scored :=
  (postStages cands threshold).head?

/-- The `$vectorSearch` stage with its `pre_filter = {"user_id": {"$eq": user_id}}`:
the ANN engine (`engine` oracle) retrieves documents, but only from the
subset of the store matching the user filter. -/
def vectorSearchStage (engine : List CacheDoc → List CacheDoc)
    (store : List CacheDoc) (u : String) : List CacheDoc :=
  engine (store.filter (fun d => decide (d.user_id = u)))

/-- The whole aggregation of `vector_search`: filtered retrieval, score
decoration (`score` oracle assigns the engine's similarity score), match,
sort, limit, and `results[0] if results else None`. -/
def vector_search_pipeline (engine : List CacheDoc → List CacheDoc)
    (score : CacheDoc → ℚ) (store : List CacheDoc) (u : String)
    (threshold : ℚ) : Option Scored :=
  searchHead ((vectorSearchStage engine store u).map (fun d => ⟨d, score d⟩))
    threshold

/-! ### Basic pipeline lemmas -/

theorem head?_take_one {α : Type} (l : List α) : (l.take 1).head? = l.head? := by
  cases l <;> rfl

theorem head?_eq_some_ex {α : Type} {l : List α} {a : α}
    (h : l.head? = some a) : ∃ t, l = a :: t := by
  cases l with
  | nil => cases h
  | cons x t =>
    have hx : x = a := by simpa using h
    exact ⟨t, by rw [hx]⟩

theorem searchHead_mem_and_ge (cands : List Scored) (threshold : ℚ)
    (c : Scored) (h : searchHead cands threshold = some c) :
    c ∈ cands ∧ threshold ≤ c.vector_score := by
  unfold searchHead postStages at h
  rw [head?_take_one] at h
  obtain ⟨t, ht⟩ := head?_eq_some_ex h
  have hmem : c ∈ (cands.filter
      (fun c => decide (threshold ≤ c.vector_score))).insertionSort scoreDesc := by
    rw [ht]; exact List.mem_cons_self c t
  rw [List.mem_insertionSort, List.mem_filter] at hmem
  exact ⟨hmem.1, of_decide_eq_true hmem.2⟩

theorem searchHead_max (cands : List Scored) (threshold : ℚ)
    (c : Scored) (h : searchHead cands threshold = some c) :
    ∀ d ∈ cands, threshold ≤ d.vector_score → d.vector_score ≤ c.vector_score := by
  intro d hd hdt
  unfold searchHead postStages at h
  rw [head?_take_one] at h
  obtain ⟨t, ht⟩ := head?_eq_some_ex h
  have hsort : List.Sorted scoreDesc (c :: t) := by
    rw [← ht]; exact List.sorted_insertionSort scoreDesc _
  have hdmem : d ∈ c :: t := by
    rw [← ht, List.mem_insertionSort, List.mem_filter]
    exact ⟨hd, decide_eq_true hdt⟩
  rcases List.mem_cons.mp hdmem with hdc | hdt'
  · simp [hdc]
  · exact List.rel_of_sorted_cons hsort d hdt'

theorem searchHead_isSome_of_exists (cands : List Scored) (threshold : ℚ)
    (hex : ∃ d ∈ cands, threshold ≤ d.vector_score) :
    (searchHead cands threshold).isSome := by
  obtain ⟨d, hd, hdt⟩ := hex
  unfold searchHead postStages
  rw [head?_take_one]
  have hdmem : d ∈ (cands.filter
      (fun c => decide (threshold ≤ c.vector_score))).insertionSort scoreDesc := by
    rw [List.mem_insertionSort, List.mem_filter]
    exact ⟨hd, decide_eq_true hdt⟩
  cases hcons : (cands.filter
      (fun c => decide (threshold ≤ c.vector_score))).insertionSort scoreDesc with
  | nil => rw [hcons] at hdmem; exact absurd hdmem (by simp)
  | cons x t => rfl

/-! ### Embedding gateway (services/embedding_service.py) -/

/-- The ASCII whitespace characters `str.strip()` removes. -/
def isPySpace (c : Char) : Bool :=
  c == ' ' || c == '\t' || c == '\n' || c == '\x0b' || c == '\x0c' || c == '\r'

/-- Python's `str.strip()`: drop leading and trailing whitespace. -/
def pyStrip (s : String) : String :=
  String.mk
    (((s.data.dropWhile isPySpace).reverse.dropWhile isPySpace).reverse)

/-- `generate_embedding`: rejects empty / whitespace-only text before the
model runs (`if not text or not text.strip(): return []`), otherwise calls
the model (`modelEncode` oracle; a model failure is an empty result).
The second component records whether the underlying model was invoked. -/
def generate_embedding (modelEncode : String → List ℚ) (text : String) :
    List ℚ × Bool :=
  if text.isEmpty || (pyStrip text).isEmpty then ([], false)
  else (modelEncode text, true)

/-! ### Metric events emitted on the lookup path -/

/-- One recording call against the global `MetricsCollector`. -/
inductive MetricEvent
  | counter (name : String) (value : Int) (labels : List (String × String))
  | histogram (name : String) (value : ℚ) (labels : List (String × String))
  | gauge (name : String) (value : ℚ) (labels : List (String × String))
  deriving DecidableEq

/-- `log_vector_search_metrics` of monitoring/metrics.py: the counter,
histogram and gauge calls it performs, in order.  Python renders the
boolean label as `str(cache_hit)`, i.e. `"True"` / `"False"`. -/
def log_vector_search_metrics (u : String) (latency : ℚ)
    (numCandidates : Nat) (resultScore : ℚ) (cacheHit : Bool) :
    List MetricEvent :=
  [ .counter "cache_requests" 1
      [("user_id", u), ("hit", if cacheHit then "True" else "False")]
  , .histogram "query_latency_ms" latency []
  , .histogram "similarity_score" resultScore []
  , .gauge "candidates" (numCandidates : ℚ) [("user_id", u)] ]

/-! ### vector_search as run by the adapter (database/mongodb.py) -/

/-- Outcome of `list(self.cache_collection.aggregate(pipeline))`: either the
scored candidate list the `$vectorSearch`/`$addFields` stages produced, or a
raised exception.  The `except` clause of `vector_search` catches every
exception. -/
inductive AggOutcome
  | ok (retrieved : List Scored)
  | exn (msg : String)

/-- `vector_search`: runs the post-retrieval stages, records the adapter's
own metrics, and — on any exception — catches it, counts
`result=error`, and returns `None`. -/
def vector_search_run (agg : AggOutcome) (threshold : ℚ)
    (searchTime : ℚ) : Option Scored × List MetricEvent :=
  match agg with
  | .ok retrieved =>
    match searchHead retrieved threshold with
    | some r =>
      (some r, [.histogram "vector_search_latency_ms" searchTime [],
                .counter "vector_search_total" 1 [("result", "hit")]])
    | none =>
      (none, [.histogram "vector_search_latency_ms" searchTime [],
              .counter "vector_search_total" 1 [("result", "miss")]])
  | .exn _ =>
    (none, [.counter "vector_search_total" 1 [("result", "error")]])

/-! ### Lookup path (services/cache_service.py, `lookup_cache`) -/

/-- The response dictionary of `lookup_cache`; absent keys are `none`. -/
structure LookupResult where
  response : String
  latency_ms : Option ℚ
  similarity_score : Option ℚ
  error : Option String
  deriving DecidableEq

/-- Everything observable about one lookup: the returned dictionary, the
metric events recorded, whether the vector search was issued, and whether
the embedding model was invoked. -/
structure LookupTrace where
  result : LookupResult
  events : List MetricEvent
  searchIssued : Bool
  modelInvoked : Bool
  deriving DecidableEq

/-- `lookup_cache`: resolve the effective threshold, embed, search, and
produce the hit / miss / error dictionary.  `searchTime` and `totalTime`
stand for the wall-clock latencies measured by the code. -/
def lookup_cache (modelEncode : String → List ℚ) (agg : AggOutcome)
    (req : QueryRequest) (searchTime totalTime : ℚ) : LookupTrace :=
  let threshold := req.threshold.getD SIMILARITY_THRESHOLD
  let emb := generate_embedding modelEncode req.query
  if emb.1 = [] then
    { result := ⟨"", none, none, some "Embedding generation failed"⟩
    , events := [], searchIssued := false, modelInvoked := emb.2 }
  else
    let vs := vector_search_run agg threshold searchTime
    match vs.1 with
    | some r =>
      { result := ⟨r.doc.response, some totalTime, some r.vector_score, none⟩
      , events := vs.2 ++ log_vector_search_metrics req.user_id totalTime
          DEFAULT_NUM_CANDIDATES r.vector_score true
      , searchIssued := true, modelInvoked := emb.2 }
    | none =>
      { result := ⟨"cache_miss", some totalTime, none, none⟩
      , events := vs.2 ++ log_vector_search_metrics req.user_id totalTime
          DEFAULT_NUM_CANDIDATES 0 false
      , searchIssued := true, modelInvoked := emb.2 }

/-! ### Save path (services/cache_service.py, `save_to_cache`) -/

/-- The response dictionary of `save_to_cache`. -/
structure SaveOutcome where
  message : String
  error : Option String
  deriving DecidableEq

/-- Everything observable about one save: the returned dictionary, the
collection contents afterwards, whether `insert_cache_entry` was called,
and whether the embedding model was invoked. -/
structure SaveTrace where
  result : SaveOutcome
  store : List CacheDoc
  insertIssued : Bool
  modelInvoked : Bool
  deriving DecidableEq

/-- `save_to_cache`: `if not entry.embedding` (true for both a missing and
an empty caller-supplied embedding) recompute via the gateway; reject an
empty embedding; otherwise build the document (timestamp defaulted to now
by `to_dict`) and call `insert_cache_entry`, whose acknowledgement is the
`insertAck` oracle. -/
def save_to_cache (modelEncode : String → List ℚ) (store : List CacheDoc)
    (entry : CacheEntry) (now : Nat) (insertAck : Bool) : SaveTrace :=
  let emb :=
    match entry.embedding with
    | none => generate_embedding modelEncode entry.query
    | some [] => generate_embedding modelEncode entry.query
    | some e => (e, false)
  if emb.1 = [] then
    { result := ⟨"Failed to save to cache", some "Embedding generation failed"⟩
    , store := store, insertIssued := false, modelInvoked := emb.2 }
  else
    let doc : CacheDoc := ⟨entry.user_id, entry.query, entry.response, emb.1,
      entry.timestamp.getD now⟩
    if insertAck then
      { result := ⟨"Successfully saved to cache", none⟩
      , store := store ++ [doc], insertIssued := true, modelInvoked := emb.2 }
    else
      { result := ⟨"Failed to save to cache", some "Database insert failed"⟩
      , store := store, insertIssued := true, modelInvoked := emb.2 }

/-! ### Metrics collector (monitoring/metrics.py) -/

/-- The `MetricsCollector` object.  The Python `defaultdict`s are modelled
as association lists (first binding wins; a missing key reads as the
default).  `metrics` is the unused `defaultdict(list)` field. -/
structure MetricsCollector where
  metrics : List (String × List ℚ)
  counters : List (String × Int)
  gauges : List (String × ℚ)
  histograms : List (String × List ℚ)
  start_time : ℚ
  max_history : Nat
  deriving DecidableEq

/-- A fresh collector: empty maps, `max_history = 5000`. -/
def freshCollector (start : ℚ) : MetricsCollector :=
  { metrics := [], counters := [], gauges := [], histograms := []
  , start_time := start, max_history := 5000 }

/-- Find the first binding of `k` in an association list. -/
def findAssoc {β : Type} : List (String × β) → String → Option β
  | [], _ => none
  | (k', v') :: t, k => if k' = k then some v' else findAssoc t k

/-- Read an association list with a default (defaultdict read). -/
def getAssoc {β : Type} (l : List (String × β)) (k : String) (d : β) : β :=
  (findAssoc l k).getD d

/-- Write to an association list: replace the first binding of `k`, or
append a new one (defaultdict write). -/
def setAssoc {β : Type} : List (String × β) → String → β → List (String × β)
  | [], k, v => [(k, v)]
  | (k', v') :: t, k, v =>
    if k' = k then (k, v) :: t else (k', v') :: setAssoc t k v

/-- Order on label pairs used by `sorted(labels.items())` (dict keys are
unique, so ordering by key determines the order). -/
def labelLe (a b : String × String) : Prop := a.1 ≤ b.1

instance : DecidableRel labelLe :=
  fun a b => inferInstanceAs (Decidable (a.1 ≤ b.1))

/-- `_make_key`: `name` when there are no labels, otherwise
`name[k1=v1,...]` with labels sorted. -/
def make_key (name : String) (labels : List (String × String)) : String :=
  match labels with
  | [] => name
  | _ =>
    let sortedLabels := labels.insertionSort labelLe
    name ++ "[" ++
      String.intercalate "," (sortedLabels.map (fun p => p.1 ++ "=" ++ p.2))
      ++ "]"

/-- `increment_counter`. -/
def increment_counter (c : MetricsCollector) (name : String) (value : Int)
    (labels : List (String × String)) : MetricsCollector :=
  let key := make_key name labels
  let newVal := getAssoc c.counters key 0 + value
  { c with counters := setAssoc c.counters key newVal }

/-- `set_gauge`. -/
def set_gauge (c : MetricsCollector) (name : String) (value : ℚ)
    (labels : List (String × String)) : MetricsCollector :=
  { c with gauges := setAssoc c.gauges (make_key name labels) value }

/-- `while len(hist) > self.max_history: hist.popleft()`. -/
def trimHist (m : Nat) (h : List ℚ) : List ℚ :=
  if m < h.length then trimHist m h.tail else h
termination_by h.length
decreasing_by
  simp only [List.length_tail]
  omega

/-- `record_histogram`: append the value, then evict from the front while
over `max_history`. -/
def record_histogram (c : MetricsCollector) (name : String) (value : ℚ)
    (labels : List (String × String)) : MetricsCollector :=
  let key := make_key name labels
  let hist := getAssoc c.histograms key []
  let newHist := trimHist c.max_history (hist ++ [value])
  { c with histograms := setAssoc c.histograms key newHist }

/-- The per-key statistics block of `get_metrics_summary`.  The Python
percentile indices `int(count * 0.5)`, `int(count * 0.95)`,
`int(count * 0.99)` are `⌊count·p⌋`: `0.5` is exact in binary floating
point, and for `0.95` and `0.99` the double-rounding error is far below
half an ulp of any product with `count ≤ 2^52`, so truncation agrees with
the exact floor. -/
structure HistSummary where
  count : Nat
  sum : ℚ
  avg : ℚ
  min : ℚ
  max : ℚ
  p50 : ℚ
  p95 : ℚ
  p99 : ℚ
  deriving DecidableEq

/-- Summarize one non-empty histogram window, as the loop body of
`get_metrics_summary` does: sort ascending, then index. -/
def summarize (values : List ℚ) : HistSummary :=
  let sorted_values := values.insertionSort (· ≤ ·)
  let count := sorted_values.length
  { count := count
  , sum := sorted_values.sum
  , avg := sorted_values.sum / (count : ℚ)
  , min := sorted_values.getD 0 0
  , max := sorted_values.getD (count - 1) 0
  , p50 := sorted_values.getD (count / 2) 0
  , p95 := sorted_values.getD (count * 95 / 100) 0
  , p99 := sorted_values.getD (count * 99 / 100) 0 }

/-- The export record of `get_metrics_summary`. -/
structure MetricsSummary where
  uptime_seconds : ℚ
  counters : List (String × Int)
  gauges : List (String × ℚ)
  histograms : List (String × HistSummary)
  deriving DecidableEq

/-- `get_metrics_summary` (`now` is the wall clock read it performs):
uptime, raw counters and gauges, and statistics for every non-empty
histogram window (`if values:` skips empty ones). -/
def get_metrics_summary (c : MetricsCollector) (now : ℚ) : MetricsSummary :=
  { uptime_seconds := now - c.start_time
  , counters := c.counters
  , gauges := c.gauges
  , histograms := c.histograms.filterMap
      (fun p => if p.2 = [] then none else some (p.1, summarize p.2)) }

/-- `reset_metrics`: clear the three metric maps. -/
def reset_metrics (c : MetricsCollector) : MetricsCollector :=
  { c with counters := [], gauges := [], histograms := [] }

/-! ### Claim C1: threshold post-filter and maximum selection -/

/-- The behavior claimed of the post-retrieval stages at thresholds
`t1 < t2` on one retrieved candidate set. -/
def thresholdBehavior (cands : List Scored) (t1 t2 : ℚ) : Prop :=
  (∀ c, searchHead cands t2 = some c →
    t2 ≤ c.vector_score ∧ c ∈ cands ∧
      ∀ d ∈ cands, t2 ≤ d.vector_score → d.vector_score ≤ c.vector_score) ∧
  ((∃ d ∈ cands, t2 ≤ d.vector_score) → (searchHead cands t2).isSome) ∧
  ((searchHead cands t2).isSome → (searchHead cands t1).isSome)

/-- C1: no candidate scoring strictly below the threshold is ever returned,
and every returned hit scores at least the threshold; when some retrieved
candidate reaches the threshold, a candidate of maximum score among the
retrieved set is returned; and for `t1 < t2` over the same retrieved set,
a hit at `t2` implies a hit at `t1` — raising the threshold never turns a
miss into a hit. -/
theorem claim_C1 (cands : List Scored) (t1 t2 : ℚ) (ht : t1 < t2) :
    thresholdBehavior cands t1 t2 := by
  refine ⟨?_, ?_, ?_⟩
  · intro c hc
    obtain ⟨hmem, hge⟩ := searchHead_mem_and_ge cands t2 c hc
    exact ⟨hge, hmem, searchHead_max cands t2 c hc⟩
  · exact searchHead_isSome_of_exists cands t2
  · intro hsome
    obtain ⟨c, hc⟩ := Option.isSome_iff_exists.mp hsome
    obtain ⟨hmem, hge⟩ := searchHead_mem_and_ge cands t2 c hc
    exact searchHead_isSome_of_exists cands t1 ⟨c, hmem, (ht.trans_le hge).le⟩

/-- Witness for C1 at a concrete candidate set and thresholds. -/
theorem claim_C1_witness :
    (1 : ℚ) / 2 < 4 / 5 ∧
      thresholdBehavior [⟨⟨"u1", "q", "r", [1], 0⟩, 9 / 10⟩] (1 / 2) (4 / 5) :=
  ⟨by norm_num, claim_C1 _ _ _ (by norm_num)⟩

/-! ### Claim C2: user isolation via the exact-match filter -/

/-- The isolation property: a lookup by user `B` only ever surfaces
documents whose `user_id` is `B`, so a document stored under a different
user is never returned. -/
def userIsolation (engine : List CacheDoc → List CacheDoc)
    (score : CacheDoc → ℚ) (store : List CacheDoc) (B : String)
    (entry : CacheDoc) (th : ℚ) : Prop :=
  ∀ c, vector_search_pipeline engine score store B th = some c →
    c.doc.user_id = B ∧ c.doc ≠ entry

/-- C2: the `$vectorSearch` query carries `filter = {user_id: {$eq: B}}`,
so as long as the ANN engine only retrieves from the filtered set
(`hsel`), an entry saved under `user_id = A ≠ B` is never returned by a
lookup with `user_id = B`, regardless of its similarity score. -/
theorem claim_C2 (engine : List CacheDoc → List CacheDoc)
    (score : CacheDoc → ℚ) (store : List CacheDoc) (A B : String)
    (entry : CacheDoc) (th : ℚ)
    (hsel : ∀ s, ∀ d ∈ engine s, d ∈ s)
    (hA : entry.user_id = A) (hAB : A ≠ B) :
    userIsolation engine score store B entry th := by
  intro c hc
  obtain ⟨hmem, -⟩ := searchHead_mem_and_ge _ th c hc
  rw [List.mem_map] at hmem
  obtain ⟨d, hd, hdc⟩ := hmem
  have hd' : d ∈ store.filter (fun d => decide (d.user_id = B)) :=
    hsel _ d hd
  rw [List.mem_filter] at hd'
  have huid : d.user_id = B := of_decide_eq_true hd'.2
  have hcd : c.doc = d := by rw [← hdc]
  refine ⟨by rw [hcd]; exact huid, ?_⟩
  intro hce
  rw [hcd] at hce
  rw [hce] at huid
  exact hAB (hA ▸ huid)

/-- Witness for C2: identity engine, a one-document store under user
`"a"`, looked up by user `"b"`. -/
theorem claim_C2_witness :
    (∀ s, ∀ d ∈ (fun s : List CacheDoc => s) s, d ∈ s) ∧
      ("a" : String) ≠ "b" ∧
      userIsolation (fun s => s) (fun _ => 1) [⟨"a", "q", "r", [1], 0⟩] "b"
        ⟨"a", "q", "r", [1], 0⟩ (1 / 2) :=
  ⟨fun _ _ h => h, by decide,
    claim_C2 (fun s => s) (fun _ => 1) [⟨"a", "q", "r", [1], 0⟩] "a" "b"
      ⟨"a", "q", "r", [1], 0⟩ (1 / 2) (fun _ _ h => h) rfl (by decide)⟩

/-! ### Claim C3: behavior of a lookup when the vector store fails -/

/-- Counterexample to C3 as stated: a concrete lookup during which the
store raises ends as a MISS — response `"cache_miss"`, no error field —
because `vector_search` catches every exception and returns `None`; the
claimed ERROR terminal state (empty response, populated error) does not
occur. -/
theorem claim_C3_counterexample :
    (lookup_cache (fun _ => [1]) (.exn "connection failure")
        ⟨"u1", "hello", none⟩ 1 2).result =
      ⟨"cache_miss", some 2, none, none⟩ := by
  decide

/-- The corrected behavior: on an operational store failure the lookup
completes as a MISS carrying the latency, while the adapter records a
`vector_search_total result=error` counter and the engine records a
`cache_requests hit=False` sample. -/
def missOnStoreError (modelEncode : String → List ℚ) (req : QueryRequest)
    (msg : String) (searchTime totalTime : ℚ) : Prop :=
  (lookup_cache modelEncode (.exn msg) req searchTime totalTime).result =
    ⟨"cache_miss", some totalTime, none, none⟩ ∧
  MetricEvent.counter "vector_search_total" 1 [("result", "error")] ∈
    (lookup_cache modelEncode (.exn msg) req searchTime totalTime).events ∧
  MetricEvent.counter "cache_requests" 1
      [("user_id", req.user_id), ("hit", "False")] ∈
    (lookup_cache modelEncode (.exn msg) req searchTime totalTime).events

/-- C3 (amended): when the vector store search raises (and the query's
embedding succeeded), the exception is caught inside `vector_search`,
which counts `result=error` and returns `None`; the lookup therefore
terminates as a MISS with the `"cache_miss"` sentinel, a latency, and no
error message — not in the ERROR terminal state. -/
theorem claim_C3 (modelEncode : String → List ℚ) (req : QueryRequest)
    (msg : String) (searchTime totalTime : ℚ)
    (hemb : (generate_embedding modelEncode req.query).1 ≠ []) :
    missOnStoreError modelEncode req msg searchTime totalTime := by
  unfold missOnStoreError lookup_cache
  rw [if_neg hemb]
  simp [vector_search_run, log_vector_search_metrics]

/-- Witness for C3 (amended) at a concrete failing lookup. -/
theorem claim_C3_witness :
    ((generate_embedding (fun _ => [1]) ("hi" : String)).1 ≠ []) ∧
      missOnStoreError (fun _ => [1]) ⟨"u1", "hi", none⟩ "timeout" 1 2 :=
  ⟨by decide, claim_C3 (fun _ => [1]) ⟨"u1", "hi", none⟩ "timeout" 1 2 (by decide)⟩

/-! ### Claim C5: the MISS terminal state and its metric samples -/

theorem searchHead_eq_none_of_all_below (cands : List Scored) (th : ℚ)
    (h : ∀ d ∈ cands, d.vector_score < th) :
    searchHead cands th = none := by
  unfold searchHead postStages
  rw [head?_take_one]
  have hfil : cands.filter (fun c => decide (th ≤ c.vector_score)) = [] := by
    rw [List.filter_eq_nil_iff]
    intro a ha
    simp only [decide_eq_true_eq]
    exact not_le.mpr (h a ha)
  rw [hfil]
  rfl

/-- The MISS contract: the dictionary holds the sentinel and the latency
and nothing else, and the three metric samples of a miss are recorded. -/
def missContract (modelEncode : String → List ℚ) (retrieved : List Scored)
    (req : QueryRequest) (searchTime totalTime : ℚ) : Prop :=
  (lookup_cache modelEncode (.ok retrieved) req searchTime totalTime).result =
    ⟨"cache_miss", some totalTime, none, none⟩ ∧
  MetricEvent.counter "cache_requests" 1
      [("user_id", req.user_id), ("hit", "False")] ∈
    (lookup_cache modelEncode (.ok retrieved) req searchTime totalTime).events ∧
  MetricEvent.histogram "query_latency_ms" totalTime [] ∈
    (lookup_cache modelEncode (.ok retrieved) req searchTime totalTime).events ∧
  MetricEvent.histogram "similarity_score" 0 [] ∈
    (lookup_cache modelEncode (.ok retrieved) req searchTime totalTime).events

/-- C5: when embedding succeeds and every retrieved candidate scores
strictly below the effective threshold, the lookup returns the
`"cache_miss"` sentinel with a latency, no similarity_score and no error,
and records a `cache_requests` sample with `hit=False`, a
`query_latency_ms` histogram sample, and a `similarity_score` histogram
sample of `0`. -/
theorem claim_C5 (modelEncode : String → List ℚ) (retrieved : List Scored)
    (req : QueryRequest) (searchTime totalTime : ℚ)
    (hemb : (generate_embedding modelEncode req.query).1 ≠ [])
    (hmiss : ∀ d ∈ retrieved,
      d.vector_score < req.threshold.getD SIMILARITY_THRESHOLD) :
    missContract modelEncode retrieved req searchTime totalTime := by
  unfold missContract lookup_cache
  rw [if_neg hemb]
  have hnone := searchHead_eq_none_of_all_below retrieved
    (req.threshold.getD SIMILARITY_THRESHOLD) hmiss
  simp [vector_search_run, hnone, log_vector_search_metrics]

/-- Witness for C5: one candidate scoring below the default threshold. -/
theorem claim_C5_witness :
    ((generate_embedding (fun _ => [1]) ("hi" : String)).1 ≠ []) ∧
      (∀ d ∈ [(⟨⟨"u1", "q", "r", [1], 0⟩, 1 / 2⟩ : Scored)],
        d.vector_score < (none : Option ℚ).getD SIMILARITY_THRESHOLD) ∧
      missContract (fun _ => [1]) [⟨⟨"u1", "q", "r", [1], 0⟩, 1 / 2⟩]
        ⟨"u1", "hi", none⟩ 1 2 :=
  ⟨by decide,
    by
      intro d hd
      simp only [List.mem_singleton] at hd
      subst hd
      norm_num [SIMILARITY_THRESHOLD],
    claim_C5 (fun _ => [1]) [⟨⟨"u1", "q", "r", [1], 0⟩, 1 / 2⟩]
      ⟨"u1", "hi", none⟩ 1 2 (by decide)
      (by
        intro d hd
        simp only [List.mem_singleton] at hd
        subst hd
        norm_num [SIMILARITY_THRESHOLD])⟩

/-! ### Claim C4: rejection of empty / whitespace-only input -/

/-- Counterexample to C4 as stated: a save whose query text is
whitespace-only but which carries a caller-supplied non-empty embedding
skips embedding generation entirely (`if not entry.embedding`), issues the
insert, and persists the entry — it does not terminate in ERROR. -/
theorem claim_C4_counterexample :
    save_to_cache (fun _ => []) [] ⟨"u1", "   ", "r", none, some [1]⟩ 0 true =
      ⟨⟨"Successfully saved to cache", none⟩, [⟨"u1", "   ", "r", [1], 0⟩],
        true, false⟩ := by
  decide

/-- The amended empty-input contract: `embed` rejects `""` and `"   "`
without the model; a lookup with whitespace-only query errors without a
search; a save with whitespace-only query errors without an insert
provided its embedding is absent or empty. -/
def emptyInputContract (modelEncode : String → List ℚ) (agg : AggOutcome)
    (req : QueryRequest) (entry : CacheEntry) (store : List CacheDoc)
    (now : Nat) (ack : Bool) (searchTime totalTime : ℚ) : Prop :=
  generate_embedding modelEncode "" = ([], false) ∧
  generate_embedding modelEncode "   " = ([], false) ∧
  ((lookup_cache modelEncode agg req searchTime totalTime).result =
      ⟨"", none, none, some "Embedding generation failed"⟩ ∧
    (lookup_cache modelEncode agg req searchTime totalTime).searchIssued
      = false ∧
    (lookup_cache modelEncode agg req searchTime totalTime).modelInvoked
      = false) ∧
  ((save_to_cache modelEncode store entry now ack).result =
      ⟨"Failed to save to cache", some "Embedding generation failed"⟩ ∧
    (save_to_cache modelEncode store entry now ack).insertIssued = false ∧
    (save_to_cache modelEncode store entry now ack).modelInvoked = false ∧
    (save_to_cache modelEncode store entry now ack).store = store)

/-- C4 (amended): embedding generation rejects empty and whitespace-only
text without invoking the model; a lookup whose query is whitespace-only
terminates in ERROR without issuing a search; and a save whose query is
whitespace-only terminates in ERROR without issuing an insert *provided
its embedding field is absent or the empty list* — a save carrying a
non-empty caller-supplied embedding proceeds to the insert regardless of
its query text (see the counterexample). -/
theorem claim_C4 (modelEncode : String → List ℚ) (agg : AggOutcome)
    (req : QueryRequest) (entry : CacheEntry) (store : List CacheDoc)
    (now : Nat) (ack : Bool) (searchTime totalTime : ℚ)
    (hq : (pyStrip req.query).isEmpty = true)
    (heq : (pyStrip entry.query).isEmpty = true)
    (hee : entry.embedding = none ∨ entry.embedding = some []) :
    emptyInputContract modelEncode agg req entry store now ack searchTime
      totalTime := by
  have hgen : ∀ t : String, (pyStrip t).isEmpty = true →
      generate_embedding modelEncode t = ([], false) := by
    intro t h
    unfold generate_embedding
    rw [h, Bool.or_true, if_pos rfl]
  refine ⟨hgen "" (by decide), hgen "   " (by decide), ?_, ?_⟩
  · have hl : generate_embedding modelEncode req.query = ([], false) :=
      hgen _ hq
    unfold lookup_cache
    rw [hl]
    exact ⟨rfl, rfl, rfl⟩
  · have hs : generate_embedding modelEncode entry.query = ([], false) :=
      hgen _ heq
    unfold save_to_cache
    rcases hee with hee | hee <;> rw [hee] <;> simp only [hs] <;>
      exact ⟨rfl, rfl, rfl, rfl⟩

/-- Witness for C4 (amended) at concrete whitespace-only inputs. -/
theorem claim_C4_witness :
    ((pyStrip (" " : String)).isEmpty = true) ∧
      ((pyStrip ("  " : String)).isEmpty = true) ∧
      ((⟨"u1", "  ", "r", none, none⟩ : CacheEntry).embedding = none ∨
        (⟨"u1", "  ", "r", none, none⟩ : CacheEntry).embedding = some []) ∧
      emptyInputContract (fun _ => [1]) (.ok []) ⟨"u1", " ", none⟩
        ⟨"u1", "  ", "r", none, none⟩ [] 0 true 1 2 :=
  ⟨by decide, by decide, Or.inl rfl,
    claim_C4 (fun _ => [1]) (.ok []) ⟨"u1", " ", none⟩
      ⟨"u1", "  ", "r", none, none⟩ [] 0 true 1 2 (by decide) (by decide)
      (Or.inl rfl)⟩

/-! ### Claim C6: embedding dimensionality at write time -/

/-- Counterexample to C6 as stated: a save whose embedding has length 1
(`EMBEDDING_DIMENSIONS = 384`) is persisted successfully — there is no
write-time dimensionality check anywhere on the save path. -/
theorem claim_C6_counterexample :
    save_to_cache (fun _ => []) [] ⟨"u1", "q", "r", some 5, some [1]⟩ 0 true =
      ⟨⟨"Successfully saved to cache", none⟩, [⟨"u1", "q", "r", [1], 5⟩],
        true, false⟩ ∧
      ([(1 : ℚ)].length ≠ EMBEDDING_DIMENSIONS) := by
  refine ⟨by decide, by decide⟩

/-- The amended write-time behavior for a mismatched dimension: the insert
is still issued and, when acknowledged, the entry is persisted as-is. -/
def noDimensionCheck (modelEncode : String → List ℚ) (store : List CacheDoc)
    (entry : CacheEntry) (e : List ℚ) (now : Nat) : Prop :=
  (save_to_cache modelEncode store entry now true).insertIssued = true ∧
  (save_to_cache modelEncode store entry now true).result =
    ⟨"Successfully saved to cache", none⟩ ∧
  (save_to_cache modelEncode store entry now true).store =
    store ++ [⟨entry.user_id, entry.query, entry.response, e,
      entry.timestamp.getD now⟩]

/-- C6 (amended): the code performs no dimensionality validation at write
time — a save whose non-empty embedding has length different from
`EMBEDDING_DIMENSIONS` still issues the insert, and when the storage
engine acknowledges the write the mismatched entry is persisted, so
embedding dimensionality is not kept constant by the code. -/
theorem claim_C6 (modelEncode : String → List ℚ) (store : List CacheDoc)
    (entry : CacheEntry) (e : List ℚ) (now : Nat)
    (he : entry.embedding = some e) (hne : e ≠ [])
    (hlen : e.length ≠ EMBEDDING_DIMENSIONS) :
    noDimensionCheck modelEncode store entry e now := by
  unfold noDimensionCheck save_to_cache
  rw [he]
  match e, hne with
  | x :: t, _ =>
    rw [if_neg (by simp)]
    exact ⟨rfl, rfl, rfl⟩

/-- Witness for C6 (amended) with a length-1 embedding. -/
theorem claim_C6_witness :
    ((⟨"u1", "q", "r", none, some [1]⟩ : CacheEntry).embedding = some [1]) ∧
      ([(1 : ℚ)] ≠ []) ∧ ([(1 : ℚ)].length ≠ EMBEDDING_DIMENSIONS) ∧
      noDimensionCheck (fun _ => []) [] ⟨"u1", "q", "r", none, some [1]⟩
        [1] 0 :=
  ⟨rfl, by decide, by decide,
    claim_C6 (fun _ => []) [] ⟨"u1", "q", "r", none, some [1]⟩ [1] 0 rfl
      (by decide) (by decide)⟩

/-! ### Claim C9: an empty caller-supplied embedding -/

/-- The claimed equivalence and failure behavior for a save whose
embedding field is the empty list. -/
def emptyEmbeddingContract (modelEncode : String → List ℚ)
    (store : List CacheDoc) (entry : CacheEntry) (now : Nat)
    (ack : Bool) : Prop :=
  save_to_cache modelEncode store { entry with embedding := some [] } now
      ack =
    save_to_cache modelEncode store { entry with embedding := none } now
      ack ∧
  ((generate_embedding modelEncode entry.query).1 = [] →
    (save_to_cache modelEncode store { entry with embedding := some [] }
        now ack).result =
      ⟨"Failed to save to cache", some "Embedding generation failed"⟩ ∧
    (save_to_cache modelEncode store { entry with embedding := some [] }
        now ack).store = store ∧
    (save_to_cache modelEncode store { entry with embedding := some [] }
        now ack).insertIssued = false) ∧
  (∀ e, (generate_embedding modelEncode entry.query).1 = e → e ≠ [] →
    ack = true →
    (save_to_cache modelEncode store { entry with embedding := some [] }
        now ack).store =
      store ++ [⟨entry.user_id, entry.query, entry.response, e,
        entry.timestamp.getD now⟩])

/-- C9: a caller-supplied empty embedding is treated exactly like an
absent one — the save recomputes the embedding from the query text, and
if that recomputation also yields an empty result the save terminates in
ERROR with "Embedding generation failed" and nothing is persisted;
otherwise the recomputed embedding is what gets stored. -/
theorem claim_C9 (modelEncode : String → List ℚ) (store : List CacheDoc)
    (entry : CacheEntry) (now : Nat) (ack : Bool) :
    emptyEmbeddingContract modelEncode store entry now ack := by
  refine ⟨rfl, ?_, ?_⟩
  · intro hgen
    unfold save_to_cache
    simp only [hgen]
    exact ⟨rfl, rfl, rfl⟩
  · intro e hgen hne hack
    subst hack
    unfold save_to_cache
    simp only [hgen]
    rw [if_neg hne]
    simp

/-- Witness for C9 at a concrete entry whose recomputation fails. -/
theorem claim_C9_witness :
    emptyEmbeddingContract (fun _ => []) [] ⟨"u1", "q", "r", none, none⟩
      0 true :=
  claim_C9 (fun _ => []) [] ⟨"u1", "q", "r", none, none⟩ 0 true

/-! ### Claim C7: histogram windows are bounded FIFO -/

theorem findAssoc_setAssoc_self {β : Type} (l : List (String × β))
    (k : String) (v : β) : findAssoc (setAssoc l k v) k = some v := by
  induction l with
  | nil => simp [setAssoc, findAssoc]
  | cons p t ih =>
    obtain ⟨k', v'⟩ := p
    by_cases hk : k' = k
    · subst hk
      simp [setAssoc, findAssoc]
    · simp only [setAssoc, if_neg hk, findAssoc]
      exact ih

theorem findAssoc_setAssoc_ne {β : Type} (l : List (String × β))
    (k k' : String) (v : β) (h : k ≠ k') :
    findAssoc (setAssoc l k v) k' = findAssoc l k' := by
  induction l with
  | nil => simp [setAssoc, findAssoc, h]
  | cons p t ih =>
    obtain ⟨k'', v''⟩ := p
    by_cases hk : k'' = k
    · subst hk
      simp only [setAssoc, if_pos rfl, findAssoc]
      rw [if_neg h, if_neg h]
    · simp only [setAssoc, if_neg hk, findAssoc]
      by_cases hk2 : k'' = k'
      · rw [if_pos hk2, if_pos hk2]
      · rw [if_neg hk2, if_neg hk2]
        exact ih

theorem trimHist_eq_drop (m : Nat) (h : List ℚ) :
    trimHist m h = h.drop (h.length - m) := by
  induction h with
  | nil => rw [trimHist]; simp
  | cons x t ih =>
    rw [trimHist]
    by_cases hm : m < (x :: t).length
    · rw [if_pos hm, List.tail_cons, ih]
      have hlen : (x :: t).length - m = (t.length - m) + 1 := by
        simp only [List.length_cons] at hm ⊢
        omega
      rw [hlen, List.drop_succ_cons]
    · rw [if_neg hm]
      have hlen : (x :: t).length - m = 0 := by
        simp only [List.length_cons] at hm ⊢
        omega
      rw [hlen, List.drop_zero]

theorem record_histogram_window (c : MetricsCollector) (name : String)
    (v : ℚ) (labels : List (String × String)) :
    getAssoc (record_histogram c name v labels).histograms
        (make_key name labels) [] =
      trimHist c.max_history
        (getAssoc c.histograms (make_key name labels) [] ++ [v]) := by
  unfold record_histogram getAssoc
  rw [findAssoc_setAssoc_self]
  rfl

theorem record_histogram_window_ne (c : MetricsCollector) (name : String)
    (v : ℚ) (labels : List (String × String)) (key : String)
    (h : make_key name labels ≠ key) :
    getAssoc (record_histogram c name v labels).histograms key [] =
      getAssoc c.histograms key [] := by
  unfold record_histogram getAssoc
  rw [findAssoc_setAssoc_ne _ _ _ _ h]

/-- A sequence of `record_histogram` calls, each `(name, labels, value)`. -/
def runRecords (c : MetricsCollector)
    (calls : List (String × List (String × String) × ℚ)) :
    MetricsCollector :=
  calls.foldl (fun acc e => record_histogram acc e.1 e.2.2 e.2.1) c

/-- The values, in order, of the calls that land in histogram key `key`. -/
def relevantValues (key : String)
    (calls : List (String × List (String × String) × ℚ)) : List ℚ :=
  (calls.filter (fun e => decide (make_key e.1 e.2.1 = key))).map
    (fun e => e.2.2)

theorem runRecords_max_history (calls : List (String × List (String × String) × ℚ)) :
    ∀ c : MetricsCollector, (runRecords c calls).max_history = c.max_history := by
  induction calls with
  | nil => intro c; rfl
  | cons e rest ih =>
    intro c
    exact ih (record_histogram c e.1 e.2.2 e.2.1)

theorem runRecords_window (key : String)
    (calls : List (String × List (String × String) × ℚ)) :
    ∀ c : MetricsCollector,
    (getAssoc c.histograms key []).length ≤ c.max_history →
    getAssoc (runRecords c calls).histograms key [] =
      (getAssoc c.histograms key [] ++ relevantValues key calls).drop
        ((getAssoc c.histograms key []).length +
          (relevantValues key calls).length - c.max_history) := by
  induction calls with
  | nil =>
    intro c hinv
    simp only [runRecords, List.foldl_nil, relevantValues, List.filter_nil,
      List.map_nil, List.append_nil, List.length_nil, Nat.add_zero]
    rw [Nat.sub_eq_zero_of_le hinv, List.drop_zero]
  | cons e rest ih =>
    intro c hinv
    have hstep : runRecords c (e :: rest) =
        runRecords (record_histogram c e.1 e.2.2 e.2.1) rest := rfl
    have hM : (record_histogram c e.1 e.2.2 e.2.1).max_history =
        c.max_history := rfl
    by_cases hk : make_key e.1 e.2.1 = key
    · -- this call lands in `key`
      have hwd : getAssoc (record_histogram c e.1 e.2.2 e.2.1).histograms
            key [] =
          (getAssoc c.histograms key [] ++ [e.2.2]).drop
            ((getAssoc c.histograms key []).length + 1 - c.max_history) := by
        rw [← hk, record_histogram_window c e.1 e.2.2 e.2.1,
          trimHist_eq_drop, List.length_append, List.length_singleton]
      have hlen' : (getAssoc (record_histogram c e.1 e.2.2 e.2.1).histograms
            key []).length =
          (getAssoc c.histograms key []).length + 1 -
            ((getAssoc c.histograms key []).length + 1 - c.max_history) := by
        rw [hwd, List.length_drop, List.length_append, List.length_singleton]
      have hinv' : (getAssoc (record_histogram c e.1 e.2.2 e.2.1).histograms
            key []).length ≤
          (record_histogram c e.1 e.2.2 e.2.1).max_history := by
        rw [hM, hlen']
        omega
      have hrel : relevantValues key (e :: rest) =
          e.2.2 :: relevantValues key rest := by
        simp [relevantValues, List.filter_cons, hk]
      have hih := ih (record_histogram c e.1 e.2.2 e.2.1) hinv'
      rw [hM, hlen', hwd] at hih
      rw [hstep, hih, hrel]
      have hle : (getAssoc c.histograms key []).length + 1 - c.max_history ≤
          (getAssoc c.histograms key [] ++ [e.2.2]).length := by
        rw [List.length_append, List.length_singleton]
        omega
      rw [← List.drop_append_of_le_length hle, List.drop_drop,
        List.append_assoc, List.singleton_append]
      congr 1
      rw [List.length_cons]
      omega
    · -- this call lands in a different key
      have hw' : getAssoc (record_histogram c e.1 e.2.2 e.2.1).histograms
            key [] =
          getAssoc c.histograms key [] :=
        record_histogram_window_ne c e.1 e.2.2 e.2.1 key hk
      have hrel : relevantValues key (e :: rest) = relevantValues key rest := by
        simp [relevantValues, List.filter_cons, hk]
      have hinv' : (getAssoc (record_histogram c e.1 e.2.2 e.2.1).histograms
            key []).length ≤
          (record_histogram c e.1 e.2.2 e.2.1).max_history := by
        rw [hw', hM]
        exact hinv
      have hih := ih (record_histogram c e.1 e.2.2 e.2.1) hinv'
      rw [hw', hM] at hih
      rw [hstep, hih, hrel]

/-- C7: starting from a fresh collector, after any sequence of
`record_histogram` calls the window stored under any key holds exactly the
most recent `max_history = 5000` of the values recorded into that key
(older values evicted first), and in particular never more than 5000. -/
theorem claim_C7 (calls : List (String × List (String × String) × ℚ))
    (start : ℚ) (key : String) :
    getAssoc (runRecords (freshCollector start) calls).histograms key [] =
      (relevantValues key calls).drop
        ((relevantValues key calls).length - 5000) ∧
    (getAssoc (runRecords (freshCollector start) calls).histograms key
      []).length ≤ 5000 := by
  have hfresh : getAssoc (freshCollector start).histograms key [] = [] := rfl
  have hM : (freshCollector start).max_history = 5000 := rfl
  have h := runRecords_window key calls (freshCollector start)
    (by rw [hfresh]; exact Nat.zero_le _)
  rw [hfresh, hM] at h
  simp only [List.nil_append, List.length_nil, Nat.zero_add] at h
  constructor
  · exact h
  · rw [h, List.length_drop]
    omega

/-! ### Claim C8: the exported histogram statistics -/

theorem getD_mem_of_lt {l : List ℚ} {i : Nat} (h : i < l.length) :
    l.getD i 0 ∈ l := by
  rw [List.getD_eq_getElem _ _ h]
  exact List.getElem_mem h

theorem sorted_head_le {s : List ℚ} (hs : s.Sorted (· ≤ ·))
    (h0 : 0 < s.length) : ∀ x ∈ s, s.getD 0 0 ≤ x := by
  intro x hx
  obtain ⟨i, hi⟩ := List.mem_iff_get.mp hx
  rw [List.getD_eq_get _ _ h0, ← hi]
  exact hs.rel_get_of_le (Fin.mk_le_mk.mpr (Nat.zero_le _))

theorem sorted_le_last {s : List ℚ} (hs : s.Sorted (· ≤ ·))
    (h0 : 0 < s.length) : ∀ x ∈ s, x ≤ s.getD (s.length - 1) 0 := by
  intro x hx
  obtain ⟨i, hi⟩ := List.mem_iff_get.mp hx
  rw [List.getD_eq_get _ _ (by omega), ← hi]
  exact hs.rel_get_of_le (Fin.mk_le_mk.mpr (by omega))

theorem findAssoc_summary (h : List (String × List ℚ)) (key : String)
    (w : List ℚ) (hw : findAssoc h key = some w) (hne : w ≠ []) :
    findAssoc (h.filterMap
        (fun p => if p.2 = [] then none else some (p.1, summarize p.2)))
      key = some (summarize w) := by
  induction h with
  | nil => cases hw
  | cons p t ih =>
    obtain ⟨k', v'⟩ := p
    by_cases hk : k' = key
    · subst hk
      rw [findAssoc, if_pos rfl] at hw
      have hv : v' = w := Option.some.inj hw
      subst hv
      rw [List.filterMap_cons]
      simp only [if_neg hne]
      rw [findAssoc, if_pos rfl]
    · rw [findAssoc, if_neg hk] at hw
      rw [List.filterMap_cons]
      by_cases hv : v' = []
      · simp only [if_pos hv]
        exact ih hw
      · simp only [if_neg hv]
        rw [findAssoc, if_neg hk]
        exact ih hw

/-- The claimed faithfulness of the exported per-key statistics: there is
an ascending sorted permutation `s` of the stored window such that the
exported block reports the window's count, sum, average, minimum and
maximum, and reports `p50`, `p95`, `p99` as the elements of `s` at the
in-range indices `⌊count·0.5⌋`, `⌊count·0.95⌋`, `⌊count·0.99⌋`. -/
def summaryFaithful (c : MetricsCollector) (now : ℚ) (key : String)
    (w : List ℚ) : Prop :=
  ∃ s : List ℚ, s.Perm w ∧ s.Sorted (· ≤ ·) ∧
    findAssoc (get_metrics_summary c now).histograms key =
      some (summarize w) ∧
    (summarize w).count = w.length ∧
    (summarize w).sum = w.sum ∧
    (summarize w).avg = w.sum / (w.length : ℚ) ∧
    (∀ x ∈ w, (summarize w).min ≤ x ∧ x ≤ (summarize w).max) ∧
    (summarize w).min ∈ w ∧ (summarize w).max ∈ w ∧
    w.length / 2 < w.length ∧ w.length * 95 / 100 < w.length ∧
    w.length * 99 / 100 < w.length ∧
    (summarize w).p50 = s.getD (w.length / 2) 0 ∧
    (summarize w).p95 = s.getD (w.length * 95 / 100) 0 ∧
    (summarize w).p99 = s.getD (w.length * 99 / 100) 0 ∧
    (summarize w).p50 ∈ w ∧ (summarize w).p95 ∈ w ∧ (summarize w).p99 ∈ w

/-- C8: for every histogram key holding a non-empty window, the metrics
summary exports that key's statistics block, whose `p50`, `p95` and `p99`
are the elements of the ascending-sorted window at index `⌊count·p⌋`,
alongside the window's count, sum, average, minimum and maximum. -/
theorem claim_C8 (c : MetricsCollector) (now : ℚ) (key : String)
    (w : List ℚ) (hw : findAssoc c.histograms key = some w)
    (hne : w ≠ []) : summaryFaithful c now key w := by
  have hn : 0 < w.length := List.length_pos.mpr hne
  refine ⟨w.insertionSort (· ≤ ·), List.perm_insertionSort _ w,
    List.sorted_insertionSort _ w, ?_⟩
  have hlen : (w.insertionSort (· ≤ ·)).length = w.length :=
    (List.perm_insertionSort _ w).length_eq
  have hperm := List.perm_insertionSort (· ≤ ·) w
  have hsorted := List.sorted_insertionSort (· ≤ ·) w
  have hslen : 0 < (w.insertionSort (· ≤ ·)).length := by rw [hlen]; exact hn
  have hcount : (summarize w).count = w.length := by
    simp [summarize, hlen]
  have hsum : (summarize w).sum = w.sum := by
    simp [summarize, hperm.sum_eq]
  have h50 : w.length / 2 < w.length := by omega
  have h95 : w.length * 95 / 100 < w.length := by
    rw [Nat.div_lt_iff_lt_mul (by norm_num)]
    omega
  have h99 : w.length * 99 / 100 < w.length := by
    rw [Nat.div_lt_iff_lt_mul (by norm_num)]
    omega
  have hminmax : ∀ x ∈ w, (summarize w).min ≤ x ∧ x ≤ (summarize w).max := by
    intro x hx
    have hxs : x ∈ w.insertionSort (· ≤ ·) := hperm.mem_iff.mpr hx
    constructor
    · simpa [summarize] using sorted_head_le hsorted hslen x hxs
    · have := sorted_le_last hsorted hslen x hxs
      simpa [summarize, hlen] using this
  refine ⟨findAssoc_summary c.histograms key w hw hne, hcount, hsum, ?_,
    hminmax, ?_, ?_, h50, h95, h99, ?_, ?_, ?_, ?_, ?_, ?_⟩
  · simp [summarize, hperm.sum_eq, hlen]
  · have : (summarize w).min ∈ w.insertionSort (· ≤ ·) := by
      simp only [summarize]
      exact getD_mem_of_lt hslen
    exact hperm.mem_iff.mp this
  · have : (summarize w).max ∈ w.insertionSort (· ≤ ·) := by
      simp only [summarize]
      exact getD_mem_of_lt (by omega)
    exact hperm.mem_iff.mp this
  · simp [summarize, hlen]
  · simp [summarize, hlen]
  · simp [summarize, hlen]
  · have : (summarize w).p50 ∈ w.insertionSort (· ≤ ·) := by
      simp only [summarize]
      exact getD_mem_of_lt (by omega)
    exact hperm.mem_iff.mp this
  · have : (summarize w).p95 ∈ w.insertionSort (· ≤ ·) := by
      simp only [summarize]
      exact getD_mem_of_lt (by rw [hlen]; exact h95)
    exact hperm.mem_iff.mp this
  · have : (summarize w).p99 ∈ w.insertionSort (· ≤ ·) := by
      simp only [summarize]
      exact getD_mem_of_lt (by rw [hlen]; exact h99)
    exact hperm.mem_iff.mp this

/-- Witness for C8 on a three-sample window. -/
theorem claim_C8_witness :
    (findAssoc ((⟨[], [], [], [("k", [3, 1, 2])], 0, 5000⟩ :
        MetricsCollector)).histograms "k" = some [3, 1, 2]) ∧
      ([(3 : ℚ), 1, 2] ≠ []) ∧
      summaryFaithful ⟨[], [], [], [("k", [3, 1, 2])], 0, 5000⟩ 7 "k"
        [3, 1, 2] :=
  ⟨rfl, by decide,
    claim_C8 ⟨[], [], [], [("k", [3, 1, 2])], 0, 5000⟩ 7 "k" [3, 1, 2] rfl
      (by decide)⟩

/-! ### Claim C10: reset clears metrics but preserves the rest -/

/-- C10: `reset_metrics` empties every counter, gauge and histogram key,
leaves `start_time` (hence the summary's `uptime_seconds`), `max_history`
and the unused `metrics` field unchanged — it touches no other field. -/
theorem claim_C10 (c : MetricsCollector) (now : ℚ) :
    (reset_metrics c).counters = [] ∧ (reset_metrics c).gauges = [] ∧
    (reset_metrics c).histograms = [] ∧
    (reset_metrics c).start_time = c.start_time ∧
    (reset_metrics c).max_history = c.max_history ∧
    (reset_metrics c).metrics = c.metrics ∧
    (get_metrics_summary (reset_metrics c) now).uptime_seconds =
      (get_metrics_summary c now).uptime_seconds :=
  ⟨rfl, rfl, rfl, rfl, rfl, rfl, rfl⟩

end SemanticCache
